import Mathlib

/-!
Shallow embedding of the scanning core of the letieu/trade-bot repository
(Go), covering: the candle data model and colors (internal/types), the two
pattern strategies (internal/strategies), interval parsing, the forming-candle
trim and per-symbol scan pipeline (internal/bot/bot.go), the Telegram signal
aggregator (internal/frontends/telegram/bot.go), and the semaphore gating of
scanInterval.

Modelling conventions: float64 prices/volumes are modelled as `Int` (only the
order comparison `Close >= Open` and field copying matter to the verified
properties); epoch-millisecond timestamps are `Int`; Go `time.Duration`
values are carried in milliseconds (every parsed interval is a whole number
of milliseconds, so truncation arithmetic is unchanged); fallible Go calls
returning `(T, error)` become `Except String T`.
-/

namespace TradeBot

/-- Candle color, from internal/types (ColorGreen / ColorRed). -/
inductive CandleColor where
  | green
  | red
deriving DecidableEq, Repr

/-- One OHLCV bar, from internal/types. Prices are modelled as `Int`. -/
structure Candle where
  Timestamp : Int
  Open : Int
  High : Int
  Low : Int
  Close : Int
  Volume : Int
  Symbol : String
  Interval : String
deriving DecidableEq, Repr

/-- Candle.Color from internal/types: green if Close >= Open, else red. -/
def Candle.Color (c : Candle) : CandleColor :=
  if c.Close ≥ c.Open then CandleColor.green else CandleColor.red

/-- Default candle used only to give `List.getD`-style lookups a value at
indices the Go code has already bounds-checked. -/
def dCandle : Candle :=
  { Timestamp := 0, Open := 0, High := 0, Low := 0, Close := 0, Volume := 0
    Symbol := "", Interval := "" }

/-- A signal, from internal/types. `Timestamp` (Go `time.Time`) is carried in
epoch milliseconds. -/
structure Signal where
  Symbol : String
  Interval : String
  Pattern : String
  Trend : String
  Price : Int
  RSI : Int
  EMA : Int
  Volume : Int
  Timestamp : Int
  Candles : List Candle
  ConsecutiveCount : Nat
deriving DecidableEq, Repr

/-- ThreeCandleReversal.Match (internal/strategies): errors on fewer than 4
candles, else looks at the colors of the last four candles and matches when
the first three agree and the fourth differs. -/
def ThreeCandleReversal.Match (candles : List Candle) : Except String Bool :=
  if candles.length < 4 then
    Except.error ("need at least 4 candles, got " ++ toString candles.length)
  else
    let lastFour := candles.drop (candles.length - 4)
    let colors := lastFour.map Candle.Color
    let c := fun i => colors.getD i CandleColor.green
    let firstThreeSame := (c 0 == c 1) && (c 1 == c 2)
    let lastIsOpposite := c 3 != c 2
    if !firstThreeSame || !lastIsOpposite then Except.ok false
    else Except.ok true

/-- ThreeCandleReversal.GetRequiredCandles = 5. -/
def ThreeCandleReversal.GetRequiredCandles : Nat := 5

/-- ThreeCandleReversal.GetName. -/
def ThreeCandleReversal.GetName : String := "ĐẢO CHIỀU"

/-- ConsecutiveCandles strategy (internal/strategies), parameterised by
MinCount. -/
structure ConsecutiveCandles where
  MinCount : Nat
deriving DecidableEq, Repr

/-- The backward-walking loop inside countConsecutive: the number of leading
candles of the given (reversed, newest-first) list whose color matches the
target, stopping at the first mismatch. -/
def countRun (target : CandleColor) : List Candle → Nat
  | [] => 0
  | c :: rest => if c.Color == target then countRun target rest + 1 else 0

/-- ConsecutiveCandles.countConsecutive: 0 on an empty list; otherwise one for
the newest candle plus the run of earlier candles (scanned newest-to-oldest)
with the same color. -/
def countConsecutive (candles : List Candle) : Nat :=
  match candles.reverse with
  | [] => 0
  | lastCandle :: earlier => 1 + countRun lastCandle.Color earlier

/-- ConsecutiveCandles.Match: errors on fewer than MinCount candles, else
matches when the backward run length reaches MinCount. -/
def ConsecutiveCandles.Match (s : ConsecutiveCandles) (candles : List Candle) :
    Except String Bool :=
  if candles.length < s.MinCount then
    Except.error ("need at least " ++ toString s.MinCount ++ " candles, got "
      ++ toString candles.length)
  else
    Except.ok (decide (countConsecutive candles ≥ s.MinCount))

/-- ConsecutiveCandles.GetRequiredCandles = MinCount + 1. -/
def ConsecutiveCandles.GetRequiredCandles (s : ConsecutiveCandles) : Nat :=
  s.MinCount + 1

/-- ConsecutiveCandles.GetName. -/
def ConsecutiveCandles.GetName : String := "TĂNG GIẢM LIÊN TỤC"

/-- The closed set of PatternMatcher implementations registered by NewBot /
NewBotWithDeps (internal/bot/bot.go). -/
inductive Strategy where
  | threeCandleReversal
  | consecutiveCandles (s : ConsecutiveCandles)
deriving DecidableEq, Repr

/-- Strategy.Match delegating to the concrete implementation. -/
def Strategy.Match : Strategy → List Candle → Except String Bool
  | Strategy.threeCandleReversal, candles => ThreeCandleReversal.Match candles
  | Strategy.consecutiveCandles s, candles => s.Match candles

/-- Strategy.GetRequiredCandles delegating to the concrete implementation. -/
def Strategy.GetRequiredCandles : Strategy → Nat
  | Strategy.threeCandleReversal => ThreeCandleReversal.GetRequiredCandles
  | Strategy.consecutiveCandles s => s.GetRequiredCandles

/-- Strategy.GetName delegating to the concrete implementation. -/
def Strategy.GetName : Strategy → String
  | Strategy.threeCandleReversal => ThreeCandleReversal.GetName
  | Strategy.consecutiveCandles _ => ConsecutiveCandles.GetName

/-- The "consecutive_count" entry of GetMetadata: ThreeCandleReversal returns
an empty map, ConsecutiveCandles stores countConsecutive. -/
def Strategy.metadataConsecutiveCount : Strategy → List Candle → Option Nat
  | Strategy.threeCandleReversal, _ => none
  | Strategy.consecutiveCandles _, candles => some (countConsecutive candles)

/-- The strategy list built in NewBot / NewBotWithDeps. -/
def botStrategies : List Strategy :=
  [Strategy.threeCandleReversal,
   Strategy.consecutiveCandles { MinCount := 3 }]

/-- Spec-side notion for the consecutive rule: the length of the maximal
constant-color suffix of the series, computed with takeWhile on the reversed
(newest-first) series, independent of the Go loop shape. -/
def trailingRun (candles : List Candle) : Nat :=
  match candles.reverse with
  | [] => 0
  | lastCandle :: _ =>
    ((candles.reverse).takeWhile (fun c => c.Color == lastCandle.Color)).length

/-- ParseInterval (internal/types): interval label to duration, carried here
in milliseconds; unknown labels error. Mirrors the Go switch. -/
def ParseInterval (interval : String) : Except String Int :=
  if interval = "1m" then Except.ok 60000
  else if interval = "3m" then Except.ok 180000
  else if interval = "5m" then Except.ok 300000
  else if interval = "15m" then Except.ok 900000
  else if interval = "30m" then Except.ok 1800000
  else if interval = "1h" then Except.ok 3600000
  else if interval = "2h" then Except.ok 7200000
  else if interval = "4h" then Except.ok 14400000
  else if interval = "6h" then Except.ok 21600000
  else if interval = "12h" then Except.ok 43200000
  else if interval = "1d" then Except.ok 86400000
  else if interval = "1w" then Except.ok 604800000
  else Except.error ("unsupported interval: " ++ interval)

/-- Milliseconds from Go's zero time (0001-01-01 00:00:00 UTC) to the Unix
epoch: 719162 days. Go's `Time.Truncate` rounds down to a multiple of the
duration measured from this zero time, not from the epoch. -/
def goZeroOffsetMs : Int := 62135596800000

/-- The currentOpenTime computation of checkSymbol (internal/bot/bot.go),
that is `time.Now().UTC().Truncate(duration).UnixMilli()`: round `nowMs` down
to a multiple of `d` on the grid anchored at Go's zero time, expressed in
epoch milliseconds. -/
def currentOpenTime (nowMs d : Int) : Int :=
  nowMs - (nowMs + goZeroOffsetMs) % d

/-- The forming-candle trim of checkSymbol: on a non-empty series, drop the
last candle exactly when its timestamp equals the start of the currently open
bar; otherwise keep the series as-is. -/
def trimForming (nowMs d : Int) (candles : List Candle) : List Candle :=
  match candles.getLast? with
  | none => candles
  | some lastCandle =>
    if lastCandle.Timestamp = currentOpenTime nowMs d then candles.dropLast
    else candles

/-- TickerInfo from internal/types (prices as Int, see header). -/
structure TickerInfo where
  Symbol : String
  LastPrice : Int
  PrevPrice24h : Int
  Volume24h : Int
  Turnover24h : Int
deriving DecidableEq, Repr

/-- The MarketDataProvider interface (internal/types): GetCandles takes
symbol, interval, limit and endTime (the bot passes config TargetTime). -/
structure Provider where
  GetSymbols : Except String (List String)
  GetCandles : String → String → Nat → Int → Except String (List Candle)
  GetTickerInfo : String → Except String TickerInfo

/-- The `maxRequired` fold at the top of checkSymbol: the running maximum of
GetRequiredCandles over the strategy list, starting from 0. -/
def maxRequiredCandles (strategies : List Strategy) : Nat :=
  strategies.foldl (fun m s => max m s.GetRequiredCandles) 0

/-- The fetch-and-trim prefix of checkSymbol: fetch `maxRequired` candles with
endTime = targetTime; on a fetch error give up (none). On a non-empty series
parse the interval (giving up on a parse error) and apply the forming-candle
trim with the real clock `nowMs`; an empty series skips the trim block. -/
def prepareCandles (p : Provider) (nowMs targetTime : Int)
    (symbol interval : String) (maxRequired : Nat) : Option (List Candle) :=
  match p.GetCandles symbol interval maxRequired targetTime with
  | Except.error _ => none
  | Except.ok fetched =>
    if fetched.length > 0 then
      match ParseInterval interval with
      | Except.error _ => none
      | Except.ok duration => some (trimForming nowMs duration fetched)
    else some fetched

/-- The strategy-loop body of checkSymbol: a Match error or a non-match
contributes nothing; a match builds the Signal from the last four candles of
the window, the newest candle's Close and Volume, the metadata count, and a
trend read off the newest of the last four candles. -/
def strategySignal (symbol interval : String) (nowMs : Int)
    (candles : List Candle) (strategy : Strategy) : Option Signal :=
  match strategy.Match candles with
  | Except.error _ => none
  | Except.ok matched =>
    if matched then
      let lastCandles := candles.drop (candles.length - 4)
      let lastCandle := candles.getLast?.getD dCandle
      let consecutiveCount := (strategy.metadataConsecutiveCount candles).getD 0
      let trend :=
        if (lastCandles.getLast?.getD dCandle).Color == CandleColor.red then
          "bearish"
        else "bullish"
      some { Symbol := symbol, Interval := interval, Pattern := strategy.GetName
             Trend := trend, Price := lastCandle.Close, RSI := 0, EMA := 0
             Volume := lastCandle.Volume, Timestamp := nowMs
             Candles := lastCandles, ConsecutiveCount := consecutiveCount }
    else none

/-- checkSymbol (internal/bot/bot.go): fetch and trim; bail out with no
signals when fewer than 4 closed candles remain; else run every strategy on
the trimmed window, skipping failed or unmatched strategies. -/
def checkSymbol (strategies : List Strategy) (p : Provider)
    (nowMs targetTime : Int) (symbol interval : String) : List Signal :=
  match prepareCandles p nowMs targetTime symbol interval
      (maxRequiredCandles strategies) with
  | none => []
  | some candles =>
    if candles.length < 4 then []
    else strategies.filterMap (strategySignal symbol interval nowMs candles)

/-- scanInterval (internal/bot/bot.go): the flat collection of every symbol's
checkSymbol signals. The Go code appends each goroutine's result under a
mutex in completion order; this embedding fixes the symbol-list order as one
admissible sequentialisation (no claim below depends on the order). -/
def scanInterval (strategies : List Strategy) (p : Provider)
    (nowMs targetTime : Int) (symbols : List String) (interval : String) :
    List Signal :=
  (symbols.map fun sym =>
    checkSymbol strategies p nowMs targetTime sym interval).flatten

/-- scanSpecificInterval (internal/bot/bot.go): fetch the symbol list
(propagating a failure), scan, and send the signals only when the list is
non-empty (propagating a delivery failure). -/
def scanSpecificInterval (strategies : List Strategy) (p : Provider)
    (sendSignals : List Signal → Except String Unit)
    (nowMs targetTime : Int) (interval : String) : Except String Unit :=
  match p.GetSymbols with
  | Except.error e => Except.error ("failed to get symbols: " ++ e)
  | Except.ok symbols =>
    let signals := scanInterval strategies p nowMs targetTime symbols interval
    if signals.length > 0 then
      match sendSignals signals with
      | Except.error e => Except.error ("failed to send signals: " ++ e)
      | Except.ok _ => Except.ok ()
    else Except.ok ()

/-- symbolInfo (internal/frontends/telegram/bot.go): a symbol with its
consecutive count, the unit the aggregator groups and chunks. -/
structure symbolInfo where
  symbol : String
  count : Nat
deriving DecidableEq, Repr

/-- The symbolInfo built from a Signal in sendGroupedSignals. -/
def toSymbolInfo (s : Signal) : symbolInfo :=
  { symbol := s.Symbol, count := s.ConsecutiveCount }

/-- The sort.Slice less-function of sendGroupedSignals: count descending,
ties broken by symbol ascending. -/
def infoLess (a b : symbolInfo) : Bool :=
  if a.count ≠ b.count then decide (a.count > b.count)
  else decide (a.symbol < b.symbol)

/-- One insertion step of the sort used to model sort.Slice: keep walking
past entries that are strictly less than the inserted one. -/
def insertSorted (a : symbolInfo) : List symbolInfo → List symbolInfo
  | [] => [a]
  | b :: rest =>
    if infoLess b a then b :: insertSorted a rest else a :: b :: rest

/-- Model of Go's sort.Slice with infoLess: an insertion sort producing a
sorted permutation of the input (sort.Slice is unstable, so any sorted
permutation is an admissible behaviour; the properties proved below only use
that it permutes its input). -/
def sortInfos (infos : List symbolInfo) : List symbolInfo :=
  infos.foldr insertSorted []

/-- The chunk-size limit of sendGroupedSignals (at most 100 symbols per
Telegram message). -/
def maxSymbolsPerChunk : Nat := 100

/-- The slicing loop of chunkSymbolInfos for a positive chunk size k+1:
repeatedly peel off the first k+1 entries. -/
def chunkAux (k : Nat) : List symbolInfo → List (List symbolInfo)
  | [] => []
  | x :: rest => (x :: rest.take k) :: chunkAux k (rest.drop k)
termination_by l => l.length
decreasing_by
  simp only [List.length_drop, List.length_cons]
  omega

/-- chunkSymbolInfos (internal/frontends/telegram/bot.go): split a list into
consecutive slices of at most chunkSize entries; the empty list yields no
chunks. (The Go loop does not terminate for chunkSize = 0; the only call
site uses maxSymbolsPerChunk = 100, and that case is modelled as no chunks.) -/
def chunkSymbolInfos (infos : List symbolInfo) (chunkSize : Nat) :
    List (List symbolInfo) :=
  match chunkSize with
  | 0 => []
  | k + 1 => chunkAux k infos

/-- One delivered Telegram message of sendGroupedSignals, abstracted to the
bullish and bearish symbol lists it contains. -/
structure Chunk where
  bullish : List symbolInfo
  bearish : List symbolInfo
deriving DecidableEq, Repr

/-- sendGroupedSignals (internal/frontends/telegram/bot.go), abstracted to
the sequence of messages it sends: split the signals by trend (anything not
"bearish" counts bullish, preserving input order), sort each side by count
descending then symbol ascending, then either emit one combined message when
at most 100 symbols total, or emit the bullish chunks followed by the bearish
chunks. -/
def sendGroupedSignals (signals : List Signal) : List Chunk :=
  let bullish :=
    sortInfos ((signals.filter fun s => s.Trend ≠ "bearish").map toSymbolInfo)
  let bearish :=
    sortInfos ((signals.filter fun s => s.Trend = "bearish").map toSymbolInfo)
  let totalSymbols := bullish.length + bearish.length
  if totalSymbols ≤ maxSymbolsPerChunk then
    [{ bullish := bullish, bearish := bearish }]
  else
    ((chunkSymbolInfos bullish maxSymbolsPerChunk).map
      fun c => { bullish := c, bearish := [] }) ++
    ((chunkSymbolInfos bearish maxSymbolsPerChunk).map
      fun c => { bullish := [], bearish := c })

/-- State of the semaphore-gated fan-out in scanInterval: how many per-symbol
evaluation tasks are not yet started, how many currently hold a slot of the
buffered channel `semaphore` (and are evaluating), and how many finished. -/
structure SemState where
  pending : Nat
  holding : Nat
  finished : Nat
deriving DecidableEq, Repr

/-- Transitions of the scanInterval semaphore discipline with capacity `cap`
(= config MaxConcurrency): a task may start only when a buffered-channel slot
is free (`semaphore <- struct{}{}` blocks when `cap` slots are taken), and a
holding task may finish, releasing its slot. Task spawn order and batch
boundaries place no constraint here: all tasks are available from the start. -/
inductive SemStep (cap : Nat) : SemState → SemState → Prop where
  | acquire (s : SemState) : 0 < s.pending → s.holding < cap →
      SemStep cap s { pending := s.pending - 1, holding := s.holding + 1
                      finished := s.finished }
  | release (s : SemState) : 0 < s.holding →
      SemStep cap s { pending := s.pending, holding := s.holding - 1
                      finished := s.finished + 1 }

/-- Initial state of a scan over n symbols: every task pending. -/
def semInit (n : Nat) : SemState :=
  { pending := n, holding := 0, finished := 0 }

/-- The states a scan over n symbols can reach under capacity cap. -/
def SemReachable (cap n : Nat) (s : SemState) : Prop :=
  Relation.ReflTransGen (SemStep cap) (semInit n) s

/-- Candle builder for concrete test inputs (timestamp, open, close). -/
def mkCandle (ts o c : Int) : Candle :=
  { Timestamp := ts, Open := o, High := o, Low := c, Close := c, Volume := 1000
    Symbol := "BTCUSDT", Interval := "1h" }

/-- Spec-side color accessor: the i-th (0-based) of the last four colors of
the series, read off the series' full color list. -/
def lastFourColor (candles : List Candle) (i : Nat) : CandleColor :=
  (candles.map Candle.Color).getD (candles.length - 4 + i) CandleColor.green

/-- Four candles colored red, red, red, green (the reversal shape). -/
def rrrgWindow : List Candle :=
  [mkCandle 0 100 90, mkCandle 3600000 90 80, mkCandle 7200000 80 70,
   mkCandle 10800000 70 75]

/-- Three red candles. -/
def rrrWindow : List Candle :=
  [mkCandle 0 100 90, mkCandle 3600000 90 80, mkCandle 7200000 80 70]

/-- Modelled from the spec (claim C2): a variant of checkSymbol whose
forming-candle trim computes the open-bar start from targetTime whenever
targetTime is set ("now is replaced by that fixed value"), all else equal.
Used only to compare the implementation against the spec's description. -/
def checkSymbolPinned (strategies : List Strategy) (p : Provider)
    (nowMs targetTime : Int) (symbol interval : String) : List Signal :=
  match prepareCandles p (if targetTime ≠ 0 then targetTime else nowMs)
      targetTime symbol interval (maxRequiredCandles strategies) with
  | none => []
  | some candles =>
    if candles.length < 4 then []
    else strategies.filterMap (strategySignal symbol interval nowMs candles)

/-- A provider that always returns the given candle series and no ticker. -/
def constCandlesProvider (candles : List Candle) : Provider :=
  { GetSymbols := Except.ok ["BTCUSDT"]
    GetCandles := fun _ _ _ _ => Except.ok candles
    GetTickerInfo := fun _ => Except.error "no ticker" }

/-- The same candle data as constCandlesProvider but with ticker data
present, to exercise ticker-independence. -/
def tickeredProvider (candles : List Candle) : Provider :=
  { GetSymbols := Except.ok ["BTCUSDT"]
    GetCandles := fun _ _ _ _ => Except.ok candles
    GetTickerInfo := fun s =>
      Except.ok { Symbol := s, LastPrice := 1, PrevPrice24h := 2
                  Volume24h := 3, Turnover24h := 4 } }

/-- A provider whose symbol-list fetch and candle fetch both fail. -/
def failingProvider : Provider :=
  { GetSymbols := Except.error "boom"
    GetCandles := fun _ _ _ _ => Except.error "candle fetch failed"
    GetTickerInfo := fun _ => Except.error "no ticker" }

/-- Five red hourly candles ending at epoch-ms 3600000; with real time
10800000 the last one is closed, with "now" pinned to 3600000 it is the
forming bar. -/
def fiveRedCandles : List Candle :=
  [mkCandle (-10800000) 100 90, mkCandle (-7200000) 90 80,
   mkCandle (-3600000) 80 70, mkCandle 0 70 60, mkCandle 3600000 60 50]

/-- The signal checkSymbol emits for fiveRedCandles at real time 10800000:
the consecutive rule matches with run 5 and the stored candle list is the
last four of the five-candle window. -/
def fiveRedSignal : Signal :=
  { Symbol := "BTCUSDT", Interval := "1h", Pattern := "TĂNG GIẢM LIÊN TỤC"
    Trend := "bearish", Price := 50, RSI := 0, EMA := 0, Volume := 1000
    Timestamp := 10800000, Candles := fiveRedCandles.drop 1
    ConsecutiveCount := 5 }

/-- A bullish signal carrying only the fields the aggregator reads. -/
def bullishSignal : Signal :=
  { Symbol := "AAAUSDT", Interval := "1h", Pattern := "ĐẢO CHIỀU"
    Trend := "bullish", Price := 1, RSI := 0, EMA := 0, Volume := 1
    Timestamp := 0, Candles := [], ConsecutiveCount := 0 }

/-- A bearish signal carrying only the fields the aggregator reads. -/
def bearishSignal : Signal :=
  { Symbol := "BBBUSDT", Interval := "1h", Pattern := "ĐẢO CHIỀU"
    Trend := "bearish", Price := 1, RSI := 0, EMA := 0, Volume := 1
    Timestamp := 0, Candles := [], ConsecutiveCount := 0 }

/-- 120 signals for one rule/interval: 1 bullish and 119 bearish. -/
def signals120 : List Signal :=
  bullishSignal :: List.replicate 119 bearishSignal

/-! ### Helper lemmas -/

theorem countRun_eq_takeWhile (target : CandleColor) (l : List Candle) :
    countRun target l = (l.takeWhile fun c => c.Color == target).length := by
  induction l with
  | nil => rfl
  | cons c rest ih =>
    by_cases h : c.Color == target
    · simp [countRun, List.takeWhile_cons, h, ih]
    · simp [countRun, List.takeWhile_cons, h]

theorem countConsecutive_eq_trailingRun (candles : List Candle) :
    countConsecutive candles = trailingRun candles := by
  unfold countConsecutive trailingRun
  rcases hrev : candles.reverse with _ | ⟨lastCandle, earlier⟩
  · rfl
  · simp [List.takeWhile_cons, countRun_eq_takeWhile]
    omega

theorem exists_last_four (candles : List Candle) (h4 : 4 ≤ candles.length) :
    ∃ a b c d, candles.drop (candles.length - 4) = [a, b, c, d] := by
  have hl : (candles.drop (candles.length - 4)).length = 4 := by
    rw [List.length_drop]; omega
  rcases hdl : candles.drop (candles.length - 4) with
    _ | ⟨a, _ | ⟨b, _ | ⟨c, _ | ⟨d, rest⟩⟩⟩⟩ <;>
    rw [hdl] at hl <;> simp at hl
  exact ⟨a, b, c, d, by rw [hl]⟩

theorem lastFourColor_eq (candles : List Candle) (i : Nat) :
    lastFourColor candles i =
      ((candles.drop (candles.length - 4)).map Candle.Color).getD i
        CandleColor.green := by
  simp [lastFourColor, List.getD_eq_getElem?_getD, List.map_drop,
    List.getElem?_drop]

/-! ### Claim theorems -/

/-- C4: for every candle window of length at least 4, ThreeCandleReversal.Match
returns true iff the colors c0..c3 of the last four candles satisfy c0 = c1,
c1 = c2 and c3 ≠ c2 (shape XXXY with X ≠ Y); in particular it returns false on
the shapes XXYY, XYXY and XXXX. -/
theorem threeCandleReversal_matches_iff_xxxy (candles : List Candle)
    (h4 : 4 ≤ candles.length) :
    (ThreeCandleReversal.Match candles = Except.ok true ↔
      (lastFourColor candles 0 = lastFourColor candles 1 ∧
       lastFourColor candles 1 = lastFourColor candles 2 ∧
       lastFourColor candles 3 ≠ lastFourColor candles 2)) ∧
    (∀ X Y : CandleColor, X ≠ Y →
      ((candles.map Candle.Color).drop (candles.length - 4) = [X, X, Y, Y] →
        ThreeCandleReversal.Match candles = Except.ok false) ∧
      ((candles.map Candle.Color).drop (candles.length - 4) = [X, Y, X, Y] →
        ThreeCandleReversal.Match candles = Except.ok false) ∧
      ((candles.map Candle.Color).drop (candles.length - 4) = [X, X, X, X] →
        ThreeCandleReversal.Match candles = Except.ok false)) := by
  obtain ⟨a, b, c, d, hd⟩ := exists_last_four candles h4
  have hmap : (candles.map Candle.Color).drop (candles.length - 4)
      = [a.Color, b.Color, c.Color, d.Color] := by
    rw [← List.map_drop, hd]; rfl
  have hMatch : ThreeCandleReversal.Match candles =
      if !((a.Color == b.Color) && (b.Color == c.Color)) || !(d.Color != c.Color)
      then Except.ok false else Except.ok true := by
    simp only [ThreeCandleReversal.Match, hd]
    rw [if_neg (by omega)]
    rfl
  have h0 : lastFourColor candles 0 = a.Color := by rw [lastFourColor_eq, hd]; rfl
  have h1 : lastFourColor candles 1 = b.Color := by rw [lastFourColor_eq, hd]; rfl
  have h2 : lastFourColor candles 2 = c.Color := by rw [lastFourColor_eq, hd]; rfl
  have h3 : lastFourColor candles 3 = d.Color := by rw [lastFourColor_eq, hd]; rfl
  constructor
  · rw [hMatch, h0, h1, h2, h3]
    cases a.Color <;> cases b.Color <;> cases c.Color <;> cases d.Color <;>
      simp
  · intro X Y hXY
    refine ⟨fun hEq => ?_, fun hEq => ?_, fun hEq => ?_⟩ <;>
    · rw [hmap] at hEq
      simp only [List.cons.injEq, and_true] at hEq
      obtain ⟨e1, e2, e3, e4⟩ := hEq
      rw [hMatch, e1, e2, e3, e4]
      cases X <;> cases Y <;> simp_all

/-- C5: for every window long enough not to error (length at least MinCount),
ConsecutiveCandles.Match returns, with no error, exactly the test that the
trailing run of identical-colored candles counted backward from the newest
candle has length at least MinCount. -/
theorem consecutiveSameColor_matches_iff_trailingRun (s : ConsecutiveCandles)
    (candles : List Candle) (h : s.MinCount ≤ candles.length) :
    s.Match candles = Except.ok (decide (s.MinCount ≤ trailingRun candles)) ∧
    (s.Match candles = Except.ok true ↔ s.MinCount ≤ trailingRun candles) := by
  have hok : s.Match candles
      = Except.ok (decide (s.MinCount ≤ trailingRun candles)) := by
    unfold ConsecutiveCandles.Match
    rw [if_neg (by omega), countConsecutive_eq_trailingRun]
  refine ⟨hok, ?_⟩
  rw [hok]
  simp

/-- C3 (counterexample): the claim "Match errors iff the window is shorter
than requiredCandleCount" fails: a 4-candle window is shorter than
ThreeCandleReversal's requiredCandleCount of 5 yet Match succeeds, and a
3-candle window is shorter than ConsecutiveCandles(3)'s requiredCandleCount
of 4 yet Match succeeds. -/
theorem match_ok_below_requiredCandles :
    (rrrgWindow.length < ThreeCandleReversal.GetRequiredCandles ∧
      ThreeCandleReversal.Match rrrgWindow = Except.ok true) ∧
    (rrrWindow.length < (ConsecutiveCandles.mk 3).GetRequiredCandles ∧
      (ConsecutiveCandles.mk 3).Match rrrWindow = Except.ok true) := by
  refine ⟨⟨by decide, rfl⟩, ⟨by decide, rfl⟩⟩

/-- C3 (amended): each rule variant's Match errors iff the window is shorter
than requiredCandleCount − 1 (that is, 4 for ThreeCandleReversal and MinCount
for ConsecutiveCandles); on any window at least that long it returns a
boolean with no error. -/
theorem match_errors_iff_below_required_minus_one (st : Strategy)
    (w : List Candle) :
    ((∃ e, st.Match w = Except.error e) ↔
      w.length < st.GetRequiredCandles - 1) ∧
    (st.GetRequiredCandles - 1 ≤ w.length →
      ∃ b : Bool, st.Match w = Except.ok b) := by
  cases st with
  | threeCandleReversal =>
    by_cases hl : w.length < 4
    · simp [Strategy.Match, ThreeCandleReversal.Match, Strategy.GetRequiredCandles,
        ThreeCandleReversal.GetRequiredCandles, hl]
    · constructor
      · simp only [Strategy.Match, ThreeCandleReversal.Match, if_neg hl,
          Strategy.GetRequiredCandles, ThreeCandleReversal.GetRequiredCandles]
        constructor
        · rintro ⟨e, he⟩
          split at he <;> simp_all
        · intro hc; omega
      · intro _
        simp only [Strategy.Match, ThreeCandleReversal.Match, if_neg hl]
        split <;> exact ⟨_, rfl⟩
  | consecutiveCandles s =>
    by_cases hl : w.length < s.MinCount
    · simp [Strategy.Match, ConsecutiveCandles.Match, Strategy.GetRequiredCandles,
        ConsecutiveCandles.GetRequiredCandles, hl]
    · constructor
      · simp only [Strategy.Match, ConsecutiveCandles.Match, if_neg hl,
          Strategy.GetRequiredCandles, ConsecutiveCandles.GetRequiredCandles]
        constructor
        · rintro ⟨e, he⟩; simp_all
        · intro hc; omega
      · intro _
        simp only [Strategy.Match, ConsecutiveCandles.Match, if_neg hl]
        exact ⟨_, rfl⟩

/-- C3 (witness for the amended theorem): at a concrete 4-candle window,
ThreeCandleReversal.Match returns a boolean with no error. -/
theorem match_errors_iff_below_required_minus_one_witness :
    ∃ b : Bool, Strategy.threeCandleReversal.Match rrrgWindow = Except.ok b :=
  (match_errors_iff_below_required_minus_one Strategy.threeCandleReversal
    rrrgWindow).2 (by decide)

/-- C9: in the semaphore-gated fan-out of scanInterval with capacity
MaxConcurrency, every reachable state has at most MaxConcurrency per-symbol
evaluation tasks holding a slot (in flight), independent of batch
boundaries. -/
theorem scanInterval_semaphore_bound (cap n : Nat) (s : SemState)
    (h : SemReachable cap n s) : s.holding ≤ cap := by
  induction h with
  | refl => simp [semInit]
  | tail _ step ih =>
    cases step with
    | acquire hp hh => simpa using hh
    | release hh => simp; omega

/-- C9 (witness): after one acquire step of a 5-task scan under capacity 2,
the reached state holds at most 2 slots. -/
theorem scanInterval_semaphore_bound_witness :
    (SemState.mk 4 1 0).holding ≤ 2 :=
  scanInterval_semaphore_bound 2 5 (SemState.mk 4 1 0)
    (Relation.ReflTransGen.single
      (SemStep.acquire (semInit 5) (by decide) (by decide)))

/-- C4 (witness): the matching shape test instantiated at the concrete
red-red-red-green window. -/
theorem threeCandleReversal_matches_iff_xxxy_witness :
    ThreeCandleReversal.Match rrrgWindow = Except.ok true ↔
      (lastFourColor rrrgWindow 0 = lastFourColor rrrgWindow 1 ∧
       lastFourColor rrrgWindow 1 = lastFourColor rrrgWindow 2 ∧
       lastFourColor rrrgWindow 3 ≠ lastFourColor rrrgWindow 2) :=
  (threeCandleReversal_matches_iff_xxxy rrrgWindow (by decide)).1

/-- C5 (witness): the trailing-run test instantiated at three red candles
with MinCount 3. -/
theorem consecutiveSameColor_matches_iff_trailingRun_witness :
    (ConsecutiveCandles.mk 3).Match rrrWindow
      = Except.ok (decide ((ConsecutiveCandles.mk 3).MinCount
          ≤ trailingRun rrrWindow)) :=
  (consecutiveSameColor_matches_iff_trailingRun (ConsecutiveCandles.mk 3)
    rrrWindow (by decide)).1

theorem ParseInterval_pos_and_dvd (itv : String) (d : Int)
    (h : ParseInterval itv = Except.ok d) :
    0 < d ∧ (itv = "1w" ∨ d ∣ goZeroOffsetMs) := by
  unfold ParseInterval at h
  by_cases h1 : itv = "1m"
  · rw [if_pos h1] at h; injection h with h'; subst h'
    exact ⟨by norm_num, Or.inr ⟨1035593280, by norm_num [goZeroOffsetMs]⟩⟩
  rw [if_neg h1] at h
  by_cases h2 : itv = "3m"
  · rw [if_pos h2] at h; injection h with h'; subst h'
    exact ⟨by norm_num, Or.inr ⟨345197760, by norm_num [goZeroOffsetMs]⟩⟩
  rw [if_neg h2] at h
  by_cases h3 : itv = "5m"
  · rw [if_pos h3] at h; injection h with h'; subst h'
    exact ⟨by norm_num, Or.inr ⟨207118656, by norm_num [goZeroOffsetMs]⟩⟩
  rw [if_neg h3] at h
  by_cases h4 : itv = "15m"
  · rw [if_pos h4] at h; injection h with h'; subst h'
    exact ⟨by norm_num, Or.inr ⟨69039552, by norm_num [goZeroOffsetMs]⟩⟩
  rw [if_neg h4] at h
  by_cases h5 : itv = "30m"
  · rw [if_pos h5] at h; injection h with h'; subst h'
    exact ⟨by norm_num, Or.inr ⟨34519776, by norm_num [goZeroOffsetMs]⟩⟩
  rw [if_neg h5] at h
  by_cases h6 : itv = "1h"
  · rw [if_pos h6] at h; injection h with h'; subst h'
    exact ⟨by norm_num, Or.inr ⟨17259888, by norm_num [goZeroOffsetMs]⟩⟩
  rw [if_neg h6] at h
  by_cases h7 : itv = "2h"
  · rw [if_pos h7] at h; injection h with h'; subst h'
    exact ⟨by norm_num, Or.inr ⟨8629944, by norm_num [goZeroOffsetMs]⟩⟩
  rw [if_neg h7] at h
  by_cases h8 : itv = "4h"
  · rw [if_pos h8] at h; injection h with h'; subst h'
    exact ⟨by norm_num, Or.inr ⟨4314972, by norm_num [goZeroOffsetMs]⟩⟩
  rw [if_neg h8] at h
  by_cases h9 : itv = "6h"
  · rw [if_pos h9] at h; injection h with h'; subst h'
    exact ⟨by norm_num, Or.inr ⟨2876648, by norm_num [goZeroOffsetMs]⟩⟩
  rw [if_neg h9] at h
  by_cases h10 : itv = "12h"
  · rw [if_pos h10] at h; injection h with h'; subst h'
    exact ⟨by norm_num, Or.inr ⟨1438324, by norm_num [goZeroOffsetMs]⟩⟩
  rw [if_neg h10] at h
  by_cases h11 : itv = "1d"
  · rw [if_pos h11] at h; injection h with h'; subst h'
    exact ⟨by norm_num, Or.inr ⟨719162, by norm_num [goZeroOffsetMs]⟩⟩
  rw [if_neg h11] at h
  by_cases h12 : itv = "1w"
  · rw [if_pos h12] at h; injection h with h'; subst h'
    exact ⟨by norm_num, Or.inl h12⟩
  rw [if_neg h12] at h
  exact absurd h (by simp)

theorem emod_add_of_dvd (now off d : Int) (h : d ∣ off) :
    (now + off) % d = now % d := by
  obtain ⟨k, rfl⟩ := h
  apply Int.add_mul_emod_self_left

theorem dropLast_ne_self (l : List Candle) (h : l ≠ []) : l.dropLast ≠ l := by
  intro hEq
  have hlen := congrArg List.length hEq
  rw [List.length_dropLast] at hlen
  have : 0 < l.length := List.length_pos.mpr h
  omega

/-- C1 (counterexample): with the parseable interval "1w" the trim condition
is Go's zero-time truncation, which is not the epoch-ms floor: at real time
1760140800000 (Sat 2025-10-11 00:00 UTC) the code drops a sole candle
stamped 1759708800000 (Mon 2025-10-06 00:00 UTC, the Bybit weekly bar open)
even though that timestamp differs from floor(now, 1w) in epoch-ms and is
strictly before it. -/
theorem trim_drops_unaligned_week :
    ParseInterval "1w" = Except.ok 604800000 ∧
    trimForming 1760140800000 604800000 [mkCandle 1759708800000 70 75] = [] ∧
    (mkCandle 1759708800000 70 75).Timestamp ≠
      1760140800000 - 1760140800000 % 604800000 ∧
    (mkCandle 1759708800000 70 75).Timestamp <
      1760140800000 - 1760140800000 % 604800000 := by
  refine ⟨rfl, by decide, by decide, by decide⟩

/-- C1 (amended): for every non-empty series and parseable interval the trim
drops the last candle iff its timestamp equals the open-bar start computed by
Go truncation (floor on the grid anchored at Go's zero time) and otherwise
keeps the series as-is; for every parseable interval except "1w" that anchor
coincides with floor(now, d) in epoch-ms, and then a candle stamped strictly
before the aligned bar-open time is never removed. -/
theorem trim_drops_iff_aligned (itv : String) (d : Int)
    (hp : ParseInterval itv = Except.ok d) (nowMs : Int)
    (candles : List Candle) (hne : candles ≠ []) :
    (trimForming nowMs d candles ≠ candles ↔
      (candles.getLast hne).Timestamp = currentOpenTime nowMs d) ∧
    ((candles.getLast hne).Timestamp = currentOpenTime nowMs d →
      trimForming nowMs d candles = candles.dropLast) ∧
    ((candles.getLast hne).Timestamp ≠ currentOpenTime nowMs d →
      trimForming nowMs d candles = candles) ∧
    (itv ≠ "1w" → currentOpenTime nowMs d = nowMs - nowMs % d) ∧
    (itv ≠ "1w" → ∀ cd ∈ candles,
      cd.Timestamp < nowMs - nowMs % d → cd ∈ trimForming nowMs d candles) := by
  have hlast : candles.getLast? = some (candles.getLast hne) :=
    List.getLast?_eq_getLast candles hne
  have htrim : trimForming nowMs d candles =
      if (candles.getLast hne).Timestamp = currentOpenTime nowMs d then
        candles.dropLast
      else candles := by
    unfold trimForming
    rw [hlast]
  have hanchor : itv ≠ "1w" → currentOpenTime nowMs d = nowMs - nowMs % d := by
    intro h1w
    obtain ⟨hdpos, hcase⟩ := ParseInterval_pos_and_dvd itv d hp
    rcases hcase with h | hoff
    · exact absurd h h1w
    · unfold currentOpenTime
      rw [emod_add_of_dvd nowMs goZeroOffsetMs d hoff]
  refine ⟨?_, ?_, ?_, hanchor, ?_⟩
  · rw [htrim]
    constructor
    · intro hne2
      by_contra hcond
      rw [if_neg hcond] at hne2
      exact hne2 rfl
    · intro hcond
      rw [if_pos hcond]
      exact dropLast_ne_self candles hne
  · intro hcond; rw [htrim, if_pos hcond]
  · intro hcond; rw [htrim, if_neg hcond]
  · intro h1w cd hcd hlt
    rw [htrim]
    by_cases hcond : (candles.getLast hne).Timestamp = currentOpenTime nowMs d
    · rw [if_pos hcond]
      have hsplit := List.dropLast_append_getLast hne
      rw [← hsplit] at hcd
      rcases List.mem_append.mp hcd with hmem | hmem
      · exact hmem
      · exfalso
        have : cd = candles.getLast hne := by simpa using hmem
        rw [this, hcond, hanchor h1w] at hlt
        omega
    · rw [if_neg hcond]; exact hcd

/-- C1 (witness for the amended theorem): the drop-iff-aligned test
instantiated at a one-candle hourly series whose candle is the forming bar. -/
theorem trim_drops_iff_aligned_witness :
    trimForming 7200000 3600000 [mkCandle 7200000 70 75]
        ≠ [mkCandle 7200000 70 75] ↔
      (([mkCandle 7200000 70 75]).getLast (by decide)).Timestamp
        = currentOpenTime 7200000 3600000 :=
  (trim_drops_iff_aligned "1h" 3600000 rfl 7200000
    [mkCandle 7200000 70 75] (by decide)).1

/-- C2 (counterexample): the trim is not pinned by targetTime. With
targetTime 3600000 set, real clock 10800000 and five red hourly candles
ending at 3600000, checkSymbol keeps all five candles (the real clock's open
bar starts at 10800000) while the spec-modelled pinned variant drops the
last one, and the emitted signals differ. -/
theorem checkSymbol_not_pinned_by_targetTime :
    (3600000 : Int) ≠ 0 ∧
    checkSymbol botStrategies (constCandlesProvider fiveRedCandles)
        10800000 3600000 "BTCUSDT" "1h" ≠
      checkSymbolPinned botStrategies (constCandlesProvider fiveRedCandles)
        10800000 3600000 "BTCUSDT" "1h" := by
  refine ⟨by decide, by decide⟩

/-- C2 (amended): targetTime reaches checkSymbol only as the endTime argument
of the candle fetch; once two fetches agree, the whole result — including the
forming-candle trim, which always uses the real clock nowMs — is identical
for any two target times. -/
theorem checkSymbol_targetTime_only_through_fetch (strategies : List Strategy)
    (p p' : Provider) (nowMs T T' : Int) (symbol interval : String)
    (hfetch : p.GetCandles symbol interval (maxRequiredCandles strategies) T =
      p'.GetCandles symbol interval (maxRequiredCandles strategies) T') :
    checkSymbol strategies p nowMs T symbol interval =
      checkSymbol strategies p' nowMs T' symbol interval := by
  unfold checkSymbol prepareCandles
  rw [hfetch]

/-- C2 (witness for the amended theorem): two different target times with the
same fetched data scan identically. -/
theorem checkSymbol_targetTime_only_through_fetch_witness :
    checkSymbol botStrategies (constCandlesProvider fiveRedCandles)
        10800000 123 "BTCUSDT" "1h" =
      checkSymbol botStrategies (constCandlesProvider fiveRedCandles)
        10800000 456 "BTCUSDT" "1h" :=
  checkSymbol_targetTime_only_through_fetch botStrategies
    (constCandlesProvider fiveRedCandles) (constCandlesProvider fiveRedCandles)
    10800000 123 456 "BTCUSDT" "1h" rfl

/-- C7 (counterexample): a signal's candle list is not always the window the
matching rule evaluated. With five red hourly candles and no trim, the
consecutive rule matches on the full five-candle window (its backward walk
counts all five), yet the emitted signal stores only the last four. -/
theorem signal_candles_proper_suffix_of_window :
    prepareCandles (constCandlesProvider fiveRedCandles) 10800000 0
        "BTCUSDT" "1h" (maxRequiredCandles botStrategies)
      = some fiveRedCandles ∧
    (checkSymbol botStrategies (constCandlesProvider fiveRedCandles)
        10800000 0 "BTCUSDT" "1h").map Signal.Candles
      = [fiveRedCandles.drop 1] ∧
    fiveRedCandles.drop 1 ≠ fiveRedCandles := by
  refine ⟨by decide, by decide, by decide⟩

/-- C7 (amended): every signal checkSymbol emits stores exactly the last four
candles of the prepared (trimmed) window the rules were evaluated on — a
proper suffix of that window whenever it is longer than four candles. -/
theorem signal_candles_eq_last_four_of_window (strategies : List Strategy)
    (p : Provider) (nowMs targetTime : Int) (symbol interval : String)
    (sig : Signal)
    (hmem : sig ∈ checkSymbol strategies p nowMs targetTime symbol interval) :
    ∃ w, prepareCandles p nowMs targetTime symbol interval
        (maxRequiredCandles strategies) = some w ∧
      4 ≤ w.length ∧ sig.Candles = w.drop (w.length - 4) := by
  unfold checkSymbol at hmem
  split at hmem
  · simp at hmem
  · rename_i w hw
    by_cases hlen : w.length < 4
    · rw [if_pos hlen] at hmem; simp at hmem
    · rw [if_neg hlen] at hmem
      refine ⟨w, hw, by omega, ?_⟩
      obtain ⟨st, hst, hsig⟩ := List.mem_filterMap.mp hmem
      unfold strategySignal at hsig
      rcases hm : st.Match w with e | matched
      · rw [hm] at hsig; simp at hsig
      · rw [hm] at hsig
        cases matched
        · simp at hsig
        · simp only [if_true] at hsig
          obtain rfl := (Option.some.injEq _ _).mp hsig
          rfl

/-- C7 (witness for the amended theorem): instantiated at the concrete signal
emitted for fiveRedCandles. -/
theorem signal_candles_eq_last_four_of_window_witness :
    ∃ w, prepareCandles (constCandlesProvider fiveRedCandles) 10800000 0
        "BTCUSDT" "1h" (maxRequiredCandles botStrategies) = some w ∧
      4 ≤ w.length ∧ fiveRedSignal.Candles = w.drop (w.length - 4) :=
  signal_candles_eq_last_four_of_window botStrategies
    (constCandlesProvider fiveRedCandles) 10800000 0 "BTCUSDT" "1h"
    fiveRedSignal (by decide)

/-- C10: every signal checkSymbol emits carries Price equal to the Close and
Volume equal to the Volume of the newest candle of the trimmed series, and
ticker data is never consulted: providers agreeing on GetCandles scan
identically whatever GetTickerInfo returns. -/
theorem signal_price_volume_from_newest (strategies : List Strategy)
    (p : Provider) (nowMs targetTime : Int) (symbol interval : String) :
    (∀ sig ∈ checkSymbol strategies p nowMs targetTime symbol interval,
      ∃ w lastCandle,
        prepareCandles p nowMs targetTime symbol interval
          (maxRequiredCandles strategies) = some w ∧
        w.getLast? = some lastCandle ∧
        sig.Price = lastCandle.Close ∧ sig.Volume = lastCandle.Volume) ∧
    (∀ p' : Provider, p'.GetCandles = p.GetCandles →
      checkSymbol strategies p' nowMs targetTime symbol interval =
        checkSymbol strategies p nowMs targetTime symbol interval) := by
  constructor
  · intro sig hmem
    unfold checkSymbol at hmem
    split at hmem
    · simp at hmem
    · rename_i w hw
      by_cases hlen : w.length < 4
      · rw [if_pos hlen] at hmem; simp at hmem
      · rw [if_neg hlen] at hmem
        have hne : w ≠ [] := by
          intro hnil; rw [hnil] at hlen; simp at hlen
        have hlast : w.getLast? = some (w.getLast hne) :=
          List.getLast?_eq_getLast w hne
        refine ⟨w, w.getLast hne, hw, hlast, ?_⟩
        obtain ⟨st, hst, hsig⟩ := List.mem_filterMap.mp hmem
        unfold strategySignal at hsig
        rcases hm : st.Match w with e | matched
        · rw [hm] at hsig; simp at hsig
        · rw [hm] at hsig
          cases matched
          · simp at hsig
          · simp only [if_true] at hsig
            obtain rfl := (Option.some.injEq _ _).mp hsig
            rw [hlast]
            exact ⟨rfl, rfl⟩
  · intro p' hp'
    unfold checkSymbol prepareCandles
    rw [hp']

/-- C10 (witness): a provider with ticker data and one without, agreeing on
candles, scan identically. -/
theorem signal_price_volume_from_newest_witness :
    checkSymbol botStrategies (tickeredProvider fiveRedCandles)
        10800000 0 "BTCUSDT" "1h" =
      checkSymbol botStrategies (constCandlesProvider fiveRedCandles)
        10800000 0 "BTCUSDT" "1h" :=
  (signal_price_volume_from_newest botStrategies
    (constCandlesProvider fiveRedCandles) 10800000 0 "BTCUSDT" "1h").2
    (tickeredProvider fiveRedCandles) rfl

/-- C8: per-symbol and per-rule failures are isolated — scanSpecificInterval
errors only when the symbol-list fetch fails or delivery of a non-empty
signal set fails (and those failures do propagate); the scan decomposes
symbol by symbol; a failed candle fetch, and likewise an interval-parse
failure, yields no signals for that symbol only; and an erroring rule
contributes nothing for that symbol while other rules' results are kept. -/
theorem scan_failure_isolation (strategies : List Strategy) (p : Provider)
    (sendSignals : List Signal → Except String Unit)
    (nowMs targetTime : Int) (interval : String) :
    (∀ e, scanSpecificInterval strategies p sendSignals nowMs targetTime
        interval = Except.error e →
      (∃ e', p.GetSymbols = Except.error e') ∨
      (∃ symbols e', p.GetSymbols = Except.ok symbols ∧
        scanInterval strategies p nowMs targetTime symbols interval ≠ [] ∧
        sendSignals
          (scanInterval strategies p nowMs targetTime symbols interval)
          = Except.error e')) ∧
    (∀ e', p.GetSymbols = Except.error e' →
      scanSpecificInterval strategies p sendSignals nowMs targetTime interval
        = Except.error ("failed to get symbols: " ++ e')) ∧
    (∀ sym rest,
      scanInterval strategies p nowMs targetTime (sym :: rest) interval =
        checkSymbol strategies p nowMs targetTime sym interval ++
        scanInterval strategies p nowMs targetTime rest interval) ∧
    (∀ sym e,
      p.GetCandles sym interval (maxRequiredCandles strategies) targetTime
        = Except.error e →
      checkSymbol strategies p nowMs targetTime sym interval = []) ∧
    (∀ sym fetched e,
      p.GetCandles sym interval (maxRequiredCandles strategies) targetTime
        = Except.ok fetched →
      ParseInterval interval = Except.error e →
      checkSymbol strategies p nowMs targetTime sym interval = []) ∧
    (∀ sym (candles : List Candle) (st : Strategy) (sts : List Strategy),
      (st :: sts).filterMap (strategySignal sym interval nowMs candles) =
        (strategySignal sym interval nowMs candles st).toList ++
        sts.filterMap (strategySignal sym interval nowMs candles)) ∧
    (∀ sym (candles : List Candle) (st : Strategy) e,
      st.Match candles = Except.error e →
      strategySignal sym interval nowMs candles st = none) := by
  refine ⟨?_, ?_, ?_, ?_, ?_, ?_, ?_⟩
  · intro e he
    unfold scanSpecificInterval at he
    split at he
    · rename_i e2 hs
      exact Or.inl ⟨e2, hs⟩
    · rename_i symbols hs
      dsimp only at he
      split at he
      · split at he
        · rename_i hpos e3 hsend
          exact Or.inr ⟨symbols, e3, hs,
            List.ne_nil_of_length_pos (by omega), hsend⟩
        · simp at he
      · simp at he
  · intro e' hs
    unfold scanSpecificInterval
    rw [hs]
  · intro sym rest
    simp [scanInterval]
  · intro sym e h
    unfold checkSymbol prepareCandles
    rw [h]
  · intro sym fetched e hfetch hparse
    simp only [checkSymbol, prepareCandles, hfetch, hparse]
    by_cases hlen : fetched.length > 0
    · rw [if_pos hlen]
    · have : fetched = [] := by
        cases fetched
        · rfl
        · simp at hlen
      subst this
      rfl
  · intro sym candles st sts
    rcases hss : strategySignal sym interval nowMs candles st with _ | b <;>
      simp [List.filterMap_cons, hss]
  · intro sym candles st e h
    unfold strategySignal
    rw [h]

/-- C8 (witness): a failed candle fetch produces the empty signal list for
that symbol. -/
theorem scan_failure_isolation_witness :
    checkSymbol botStrategies failingProvider 0 0 "BTCUSDT" "1h" = [] :=
  (scan_failure_isolation botStrategies failingProvider
    (fun _ => Except.ok ()) 0 0 "1h").2.2.2.1 "BTCUSDT" "candle fetch failed"
    rfl

theorem insertSorted_perm (a : symbolInfo) (l : List symbolInfo) :
    (insertSorted a l).Perm (a :: l) := by
  induction l with
  | nil => simp [insertSorted]
  | cons b rest ih =>
    unfold insertSorted
    by_cases h : infoLess b a
    · rw [if_pos h]
      exact (ih.cons b).trans (List.Perm.swap a b rest)
    · rw [if_neg h]

theorem sortInfos_perm (l : List symbolInfo) : (sortInfos l).Perm l := by
  induction l with
  | nil => simp [sortInfos]
  | cons x xs ih =>
    unfold sortInfos at ih ⊢
    exact (insertSorted_perm x (xs.foldr insertSorted [])).trans (ih.cons x)

theorem chunkAux_flatten (k : Nat) :
    ∀ (n : Nat) (l : List symbolInfo), l.length ≤ n →
      (chunkAux k l).flatten = l := by
  intro n
  induction n with
  | zero =>
    intro l hl
    have : l = [] := by cases l <;> simp_all
    subst this; rw [chunkAux]; rfl
  | succ n ih =>
    intro l hl
    cases l with
    | nil => rw [chunkAux]; rfl
    | cons x rest =>
      rw [chunkAux]
      simp only [List.flatten_cons]
      rw [ih (rest.drop k) (by simp [List.length_drop] at hl ⊢; omega)]
      simp [List.take_append_drop]

theorem chunkAux_length_100 :
    ∀ (n : Nat) (l : List symbolInfo), l.length ≤ n →
      (chunkAux 99 l).length = (l.length + 99) / 100 := by
  intro n
  induction n with
  | zero =>
    intro l hl
    have : l = [] := by cases l <;> simp_all
    subst this; rw [chunkAux]; rfl
  | succ n ih =>
    intro l hl
    cases l with
    | nil => rw [chunkAux]; rfl
    | cons x rest =>
      rw [chunkAux]
      simp only [List.length_cons]
      rw [ih (rest.drop 99) (by simp [List.length_drop] at hl ⊢; omega)]
      simp only [List.length_drop]
      omega

theorem chunkSymbolInfos_100 (l : List symbolInfo) :
    chunkSymbolInfos l maxSymbolsPerChunk = chunkAux 99 l := rfl

theorem length_filter_trend (signals : List Signal) :
    (signals.filter fun s => s.Trend ≠ "bearish").length +
      (signals.filter fun s => s.Trend = "bearish").length
      = signals.length := by
  induction signals with
  | nil => rfl
  | cons s rest ih =>
    simp only [ne_eq, decide_not, List.filter_cons] at ih ⊢
    by_cases h : s.Trend = "bearish" <;> simp [h] <;> omega

theorem sendGroupedSignals_eq (signals : List Signal) :
    sendGroupedSignals signals =
      (if (sortInfos ((signals.filter fun s =>
              s.Trend ≠ "bearish").map toSymbolInfo)).length +
          (sortInfos ((signals.filter fun s =>
              s.Trend = "bearish").map toSymbolInfo)).length
          ≤ maxSymbolsPerChunk then
        [{ bullish := sortInfos ((signals.filter fun s =>
              s.Trend ≠ "bearish").map toSymbolInfo)
           bearish := sortInfos ((signals.filter fun s =>
              s.Trend = "bearish").map toSymbolInfo) }]
      else
        ((chunkSymbolInfos (sortInfos ((signals.filter fun s =>
              s.Trend ≠ "bearish").map toSymbolInfo))
            maxSymbolsPerChunk).map fun c => { bullish := c, bearish := [] }) ++
        ((chunkSymbolInfos (sortInfos ((signals.filter fun s =>
              s.Trend = "bearish").map toSymbolInfo))
            maxSymbolsPerChunk).map
              fun c => { bullish := [], bearish := c })) := rfl

/-- C6 (counterexample): 120 signals for one rule/interval with chunk limit
100 do not always yield exactly 2 chunks — a 1 bullish / 119 bearish split
yields 3 (one bullish chunk and two bearish ones). -/
theorem aggregator_not_always_two_chunks :
    signals120.length = 120 ∧ (sendGroupedSignals signals120).length = 3 := by
  have hb : (sortInfos ((signals120.filter fun s =>
      s.Trend ≠ "bearish").map toSymbolInfo)).length = 1 := by
    rw [(sortInfos_perm _).length_eq, List.length_map]; decide
  have hr : (sortInfos ((signals120.filter fun s =>
      s.Trend = "bearish").map toSymbolInfo)).length = 119 := by
    rw [(sortInfos_perm _).length_eq, List.length_map]; decide
  refine ⟨by decide, ?_⟩
  rw [sendGroupedSignals_eq, if_neg (by rw [hb, hr]; decide)]
  simp only [List.length_append, List.length_map, chunkSymbolInfos_100]
  rw [chunkAux_length_100 _ _ le_rfl, chunkAux_length_100 _ _ le_rfl, hb, hr]

/-- C6 (amended): for 120 signals for one rule/interval with chunk limit 100
the aggregator emits ceil(b/100) + ceil(r/100) chunks where b and r are the
bullish and bearish counts — that is 2 or 3 chunks depending on the split —
with all bullish entries delivered before all bearish ones, and every input
signal's entry appearing in exactly one chunk (none duplicated or dropped). -/
theorem aggregator_chunks_120 (signals : List Signal)
    (h120 : signals.length = 120) :
    ((sendGroupedSignals signals).length =
      (((signals.filter fun s => s.Trend ≠ "bearish").length + 99) / 100) +
      (((signals.filter fun s => s.Trend = "bearish").length + 99) / 100)) ∧
    ((sendGroupedSignals signals).length = 2 ∨
      (sendGroupedSignals signals).length = 3) ∧
    (∃ B R,
      ((sendGroupedSignals signals).map
          fun c => c.bullish ++ c.bearish).flatten = B ++ R ∧
      B.Perm ((signals.filter fun s => s.Trend ≠ "bearish").map toSymbolInfo) ∧
      R.Perm ((signals.filter fun s =>
        s.Trend = "bearish").map toSymbolInfo)) := by
  have hsum : (signals.filter fun s => s.Trend ≠ "bearish").length +
      (signals.filter fun s => s.Trend = "bearish").length = 120 :=
    (length_filter_trend signals).trans h120
  have hlb : (sortInfos ((signals.filter fun s =>
      s.Trend ≠ "bearish").map toSymbolInfo)).length
      = (signals.filter fun s => s.Trend ≠ "bearish").length := by
    rw [(sortInfos_perm _).length_eq, List.length_map]
  have hlr : (sortInfos ((signals.filter fun s =>
      s.Trend = "bearish").map toSymbolInfo)).length
      = (signals.filter fun s => s.Trend = "bearish").length := by
    rw [(sortInfos_perm _).length_eq, List.length_map]
  have hgt : ¬ ((sortInfos ((signals.filter fun s =>
        s.Trend ≠ "bearish").map toSymbolInfo)).length +
      (sortInfos ((signals.filter fun s =>
        s.Trend = "bearish").map toSymbolInfo)).length
      ≤ maxSymbolsPerChunk) := by
    rw [hlb, hlr]
    unfold maxSymbolsPerChunk
    omega
  have hout : sendGroupedSignals signals =
      ((chunkSymbolInfos (sortInfos ((signals.filter fun s =>
            s.Trend ≠ "bearish").map toSymbolInfo))
          maxSymbolsPerChunk).map fun c => { bullish := c, bearish := [] }) ++
      ((chunkSymbolInfos (sortInfos ((signals.filter fun s =>
            s.Trend = "bearish").map toSymbolInfo))
          maxSymbolsPerChunk).map fun c => { bullish := [], bearish := c }) := by
    rw [sendGroupedSignals_eq, if_neg hgt]
  have hlen : (sendGroupedSignals signals).length =
      (((signals.filter fun s => s.Trend ≠ "bearish").length + 99) / 100) +
      (((signals.filter fun s => s.Trend = "bearish").length + 99) / 100) := by
    rw [hout]
    simp only [List.length_append, List.length_map, chunkSymbolInfos_100]
    rw [chunkAux_length_100 _ _ le_rfl, chunkAux_length_100 _ _ le_rfl,
      hlb, hlr]
  refine ⟨hlen, by rw [hlen]; omega, ?_⟩
  refine ⟨sortInfos ((signals.filter fun s =>
      s.Trend ≠ "bearish").map toSymbolInfo),
    sortInfos ((signals.filter fun s =>
      s.Trend = "bearish").map toSymbolInfo), ?_, sortInfos_perm _,
    sortInfos_perm _⟩
  rw [hout]
  simp only [List.map_append, List.map_map, Function.comp_def,
    List.append_nil, List.nil_append, chunkSymbolInfos_100,
    List.flatten_append, List.map_id_fun, List.map_id]
  simp only [show (fun c : List symbolInfo => c) = id from rfl, List.map_id]
  rw [chunkAux_flatten 99 _ _ le_rfl, chunkAux_flatten 99 _ _ le_rfl]

/-- C6 (witness for the amended theorem): the chunk-count formula at the
concrete 1 bullish / 119 bearish input. -/
theorem aggregator_chunks_120_witness :
    (sendGroupedSignals signals120).length =
      (((signals120.filter fun s => s.Trend ≠ "bearish").length + 99) / 100) +
      (((signals120.filter fun s => s.Trend = "bearish").length + 99) / 100) :=
  (aggregator_chunks_120 signals120 (by decide)).1

end TradeBot
